import Mathlib

/-!
# EAR (EAT Attestation Result) — verification of the canonical codec,
# trust-tier derivation and the signed-envelope protocol.

The repository ships the `ear` Go package: a data model for attestation
results, a canonical JSON codec with accumulated validation, a trust-tier
derivation over trust vectors, and a JWS-based sign/verify envelope.
The implementation files of the package are not part of the source tree
given here (only their tests are), so the operations below are modelled
from the specification and pinned against the exact strings asserted by
the package's own tests.  Byte-level collaborators (base64url transport,
the standard JSON parser/serializer, the cryptographic primitives) are
external to the package and are modelled as such: tokens carry decoded
segment contents, the parser's outcome is a value of an `Except` type,
and signature primitives are an explicit parameter.
-/

/-- Generic JSON value (Go's `interface\x7b\x7d` after `encoding/json`
decoding).  Numbers are modelled as integers: every number appearing in
the codec (timestamps, tier codes, claim codes) is integral. -/
inductive JVal : Type where
  | null : JVal
  | bool (b : Bool) : JVal
  | num (n : Int) : JVal
  | str (s : String) : JVal
  | arr (xs : List JVal) : JVal
  | obj (fields : List (String × JVal)) : JVal

/-- Modelled from the spec: trust tiers are integer-coded, severity order
None < Affirming < Warning < Contraindicated coincides with the numeric
order of the codes. -/
abbrev TrustTier := Int

def TrustTierNone : TrustTier := 0
def TrustTierAffirming : TrustTier := 2
def TrustTierWarning : TrustTier := 32
def TrustTierContraindicated : TrustTier := 96

/-- The four legal tier codes. -/
def tierValid (t : TrustTier) : Bool :=
  t == TrustTierNone || t == TrustTierAffirming ||
  t == TrustTierWarning || t == TrustTierContraindicated

/-- Display name of a trust tier (JSON encoding of `ear.status`). -/
def tierName (t : TrustTier) : String :=
  if t == TrustTierNone then "none"
  else if t == TrustTierAffirming then "affirming"
  else if t == TrustTierWarning then "warning"
  else if t == TrustTierContraindicated then "contraindicated"
  else toString t

/-- Tier code for a tier display name, when recognised. -/
def tierOfName (s : String) : Option TrustTier :=
  if s == "none" then some TrustTierNone
  else if s == "affirming" then some TrustTierAffirming
  else if s == "warning" then some TrustTierWarning
  else if s == "contraindicated" then some TrustTierContraindicated
  else none

/-- Modelled from the spec: trust claims are constrained signed integers
(int8 range), partitioned into severity bands. -/
abbrev TrustClaim := Int

def NoClaim : TrustClaim := 0
def ApprovedConfigClaim : TrustClaim := 2
def UnsupportableConfigClaim : TrustClaim := 96
def ApprovedRuntimeClaim : TrustClaim := 2

def claimInRange (c : TrustClaim) : Bool :=
  decide (-128 ≤ c) && decide (c ≤ 127)

/-- Modelled from the spec: band of a claim code — NoClaim maps to tier
None, the affirming band (positive, graded) to Affirming, the warning
band (negative/unsupported) to Warning, everything else (including the
strong-negative codes) to Contraindicated. -/
def tierOfClaim (c : TrustClaim) : TrustTier :=
  if c == 0 then TrustTierNone
  else if decide (1 ≤ c) && decide (c ≤ 31) then TrustTierAffirming
  else if decide (32 ≤ c) && decide (c ≤ 63) then TrustTierWarning
  else TrustTierContraindicated

/-- The `ear.verifier-id` object: optional build and developer strings. -/
structure VerifierIdentity : Type where
  build : Option String
  developer : Option String

/-- Modelled from the spec: the trust vector has the eight named claim
fields emitted by the codec; unset fields default to `NoClaim`. -/
structure TrustVector : Type where
  instanceIdentity : TrustClaim := NoClaim
  configuration : TrustClaim := NoClaim
  executables : TrustClaim := NoClaim
  fileSystem : TrustClaim := NoClaim
  hardware : TrustClaim := NoClaim
  runtimeOpaque : TrustClaim := NoClaim
  storageOpaque : TrustClaim := NoClaim
  sourcedData : TrustClaim := NoClaim

def TrustVector.claims (v : TrustVector) : List TrustClaim :=
  [v.instanceIdentity, v.configuration, v.executables, v.fileSystem,
   v.hardware, v.runtimeOpaque, v.storageOpaque, v.sourcedData]

/-- One submodule's verdict. The two `ear.veraison.*` entries are the
open vendor-extension objects, preserved verbatim as key/value lists. -/
structure Appraisal : Type where
  status : Option TrustTier := none
  trustVector : Option TrustVector := none
  appraisalPolicyID : Option String := none
  rawEvidence : Option String := none
  processedEvidence : Option (List (String × JVal)) := none
  verifierAddedClaims : Option (List (String × JVal)) := none

/-- Top-level attestation-result envelope. -/
structure AttestationResult : Type where
  profile : Option String := none
  issuedAt : Option Int := none
  verifierID : Option VerifierIdentity := none
  nonce : Option String := none
  rawEvidence : Option String := none
  submods : List (String × Appraisal) := []

/-- The one profile identifier the codec accepts. -/
def EatProfile : String := "tag:github.com,2022:veraison/ear"

/-- Valid nonce lengths, in bytes of the stored nonce string. -/
def nonceLenValid (n : Nat) : Bool :=
  n == 8 || n == 16 || n == 32 || n == 48 || n == 64

/-- Modelled from the spec: decoded length of a base64url (unpadded)
text of the given length.  Only used to state the nonce claim. -/
def b64urlDecodedLen (n : Nat) : Nat :=
  3 * (n / 4) + (if n % 4 == 2 then 1 else if n % 4 == 3 then 2 else 0)

/- ### Encode-side validation (modelled from the spec, §4.2, pinned by
   the `TestToJSON_fail` vectors). -/

/-- Missing mandatory top-level fields, already rendered, in fixed
declaration order: profile, iat, verifier-id, submods.  An empty or
absent submodule map counts as missing. -/
def topMissingRendered (ar : AttestationResult) : List String :=
  (if ar.profile.isNone then ["'eat_profile'"] else []) ++
  (if ar.issuedAt.isNone then ["'iat'"] else []) ++
  (if ar.verifierID.isNone then ["'verifier-id'"] else []) ++
  (if ar.submods.isEmpty then
    ["'submods' (at least one appraisal must be present)"] else [])

def missingClause (items : List String) : String :=
  "missing mandatory " ++ String.intercalate ", " items

/-- Missing-mandatory part of an appraisal's validation error. -/
def appraisalMissingRendered (a : Appraisal) : List String :=
  if a.status.isNone then ["'ear.status'"] else []

/-- Invalid-value findings inside one appraisal. -/
def appraisalInvalid (a : Appraisal) : List String :=
  (match a.status with
   | none => []
   | some t =>
     if tierValid t then []
     else ["invalid value(s) for ear.status (" ++ toString t ++ ")"]) ++
  (match a.trustVector with
   | none => []
   | some v =>
     if v.claims.all claimInRange then []
     else ["invalid value(s) for ear.trustworthiness-vector"])

/-- Combined validation error of one appraisal, `none` when valid. -/
def appraisalError (a : Appraisal) : Option String :=
  let m := appraisalMissingRendered a
  let i := appraisalInvalid a
  if m.isEmpty && i.isEmpty then none
  else some (String.intercalate "; "
    ((if m.isEmpty then [] else [missingClause m]) ++ i))

/-- Per-submodule findings, wrapped with the submodule's name. -/
def submodFindings : List (String × Appraisal) → List String
  | [] => []
  | (name, a) :: rest =>
    (match appraisalError a with
     | none => []
     | some e => ["invalid value(s) for submods[" ++ name ++ "]: " ++ e]) ++
    submodFindings rest

/-- Invalid-value findings at the top level (profile, nonce, then each
offending submodule in map order). -/
def invalidFindings (ar : AttestationResult) : List String :=
  (match ar.profile with
   | none => []
   | some p =>
     if p == EatProfile then []
     else ["invalid value(s) for eat_profile (" ++ p ++ ")"]) ++
  (match ar.nonce with
   | none => []
   | some s =>
     if nonceLenValid s.length then []
     else ["invalid value(s) for eat_nonce (" ++ toString s.length ++ " bytes)"]) ++
  submodFindings ar.submods

/-- One-pass, accumulating encode-side validation: every missing
mandatory field (declaration order) then, after "; ", every
invalid-value finding.  `none` means the model is valid. -/
def validate (ar : AttestationResult) : Option String :=
  let m := topMissingRendered ar
  let i := invalidFindings ar
  if m.isEmpty && i.isEmpty then none
  else some (String.intercalate "; "
    ((if m.isEmpty then [] else [missingClause m]) ++ i))

/- ### Rendering to the generic JSON object (AsMap / encode). -/

def optStrEntry (k : String) (v : Option String) : List (String × JVal) :=
  match v with
  | none => []
  | some s => [(k, JVal.str s)]

def optNumEntry (k : String) (v : Option Int) : List (String × JVal) :=
  match v with
  | none => []
  | some n => [(k, JVal.num n)]

def verifierFields (v : VerifierIdentity) : List (String × JVal) :=
  optStrEntry "build" v.build ++ optStrEntry "developer" v.developer

def vectorFields (v : TrustVector) : List (String × JVal) :=
  [("instance-identity", JVal.num v.instanceIdentity),
   ("configuration", JVal.num v.configuration),
   ("executables", JVal.num v.executables),
   ("file-system", JVal.num v.fileSystem),
   ("hardware", JVal.num v.hardware),
   ("runtime-opaque", JVal.num v.runtimeOpaque),
   ("storage-opaque", JVal.num v.storageOpaque),
   ("sourced-data", JVal.num v.sourcedData)]

def statusEntryOf (o : Option TrustTier) : List (String × JVal) :=
  match o with
  | none => []
  | some t => [("ear.status", JVal.str (tierName t))]

def vectorEntryOf (o : Option TrustVector) : List (String × JVal) :=
  match o with
  | none => []
  | some v => [("ear.trustworthiness-vector", JVal.obj (vectorFields v))]

def peEntryOf (o : Option (List (String × JVal))) : List (String × JVal) :=
  match o with
  | none => []
  | some l => [("ear.veraison.processed-evidence", JVal.obj l)]

def vacEntryOf (o : Option (List (String × JVal))) : List (String × JVal) :=
  match o with
  | none => []
  | some l => [("ear.veraison.verifier-added-claims", JVal.obj l)]

def appraisalFields (a : Appraisal) : List (String × JVal) :=
  statusEntryOf a.status ++
  vectorEntryOf a.trustVector ++
  optStrEntry "ear.appraisal-policy-id" a.appraisalPolicyID ++
  optStrEntry "ear.raw-evidence" a.rawEvidence ++
  peEntryOf a.processedEvidence ++
  vacEntryOf a.verifierAddedClaims

def submodsFields : List (String × Appraisal) → List (String × JVal)
  | [] => []
  | (n, a) :: rest => (n, JVal.obj (appraisalFields a)) :: submodsFields rest

def verifierEntryOf (o : Option VerifierIdentity) : List (String × JVal) :=
  match o with
  | none => []
  | some v => [("ear.verifier-id", JVal.obj (verifierFields v))]

def submodsEntryOf (l : List (String × Appraisal)) : List (String × JVal) :=
  if l.isEmpty then [] else [("submods", JVal.obj (submodsFields l))]

def arFields (ar : AttestationResult) : List (String × JVal) :=
  optStrEntry "eat_profile" ar.profile ++
  optNumEntry "iat" ar.issuedAt ++
  verifierEntryOf ar.verifierID ++
  optStrEntry "eat_nonce" ar.nonce ++
  optStrEntry "ear.raw-evidence" ar.rawEvidence ++
  submodsEntryOf ar.submods

/-- Generic-map form of a result, produced without validation (the
non-signing consumers' view). -/
def AsMap (ar : AttestationResult) : JVal := JVal.obj (arFields ar)

/-- Canonical encode: validate (accumulating every violation), then
render the JSON document.  Byte serialization of the document is the
external JSON library's concern. -/
def MarshalJSON (ar : AttestationResult) : Except String JVal :=
  match validate ar with
  | some e => Except.error e
  | none => Except.ok (AsMap ar)

/- ### Decode-side coercions and population (modelled from the spec,
   §4.3, pinned by `TestUnmarshalJSON_fail` and `Test_populateFromMap`). -/

/-- Coercion for `ear.status`: accepts the canonical numeric code of a
tier (mapping it to the model constant) or its display name; every other
JSON type is rejected. -/
def toTrustTier (v : JVal) : Except String TrustTier :=
  match v with
  | JVal.num n =>
    if tierValid n then Except.ok n
    else Except.error ("invalid value(s) for ear.status (" ++ toString n ++ ")")
  | JVal.str s =>
    match tierOfName s with
    | some t => Except.ok t
    | none => Except.error ("invalid value(s) for ear.status (" ++ s ++ ")")
  | _ => Except.error "invalid value(s) for ear.status"

/-- Coercion for a trust-vector claim: accepts its numeric code (int8
range); every other JSON type is rejected. -/
def toTrustClaim (v : JVal) : Except String TrustClaim :=
  match v with
  | JVal.num n =>
    if claimInRange n then Except.ok n
    else Except.error ("out of range value " ++ toString n ++ " for trust claim")
  | _ => Except.error "unexpected type for trust claim"

/-- One decode step inside `ear.verifier-id` (a structurally fixed
object: unknown keys are a hard error naming the key). -/
def verifierStep (vid : VerifierIdentity) (kv : String × JVal) :
    Except String VerifierIdentity :=
  if kv.1 == "build" then
    match kv.2 with
    | JVal.str s => Except.ok { vid with build := some s }
    | _ => Except.error "unexpected type for verifier-id build"
  else if kv.1 == "developer" then
    match kv.2 with
    | JVal.str s => Except.ok { vid with developer := some s }
    | _ => Except.error "unexpected type for verifier-id developer"
  else Except.error ("unexpected key " ++ kv.1 ++ " in verifier-id")

def parseVerifierGo (vid : VerifierIdentity) :
    List (String × JVal) → Except String VerifierIdentity
  | [] => Except.ok vid
  | kv :: rest =>
    match verifierStep vid kv with
    | Except.error e => Except.error e
    | Except.ok vid2 => parseVerifierGo vid2 rest

def parseVerifierID (fs : List (String × JVal)) : Except String VerifierIdentity :=
  parseVerifierGo { build := none, developer := none } fs

/-- One decode step inside `ear.trustworthiness-vector` (fixed object;
unset fields default to `NoClaim`; unknown keys are a hard error). -/
def vectorStep (tv : TrustVector) (kv : String × JVal) : Except String TrustVector :=
  if kv.1 == "instance-identity" then
    (toTrustClaim kv.2).map fun c => { tv with instanceIdentity := c }
  else if kv.1 == "configuration" then
    (toTrustClaim kv.2).map fun c => { tv with configuration := c }
  else if kv.1 == "executables" then
    (toTrustClaim kv.2).map fun c => { tv with executables := c }
  else if kv.1 == "file-system" then
    (toTrustClaim kv.2).map fun c => { tv with fileSystem := c }
  else if kv.1 == "hardware" then
    (toTrustClaim kv.2).map fun c => { tv with hardware := c }
  else if kv.1 == "runtime-opaque" then
    (toTrustClaim kv.2).map fun c => { tv with runtimeOpaque := c }
  else if kv.1 == "storage-opaque" then
    (toTrustClaim kv.2).map fun c => { tv with storageOpaque := c }
  else if kv.1 == "sourced-data" then
    (toTrustClaim kv.2).map fun c => { tv with sourcedData := c }
  else Except.error ("unexpected key " ++ kv.1 ++ " in trustworthiness vector")

def parseVectorGo (tv : TrustVector) :
    List (String × JVal) → Except String TrustVector
  | [] => Except.ok tv
  | kv :: rest =>
    match vectorStep tv kv with
    | Except.error e => Except.error e
    | Except.ok tv2 => parseVectorGo tv2 rest

def parseVector (fs : List (String × JVal)) : Except String TrustVector :=
  parseVectorGo {} fs

/-- One decode step inside an appraisal object. -/
def appraisalStep (a : Appraisal) (kv : String × JVal) : Except String Appraisal :=
  if kv.1 == "ear.status" then
    (toTrustTier kv.2).map fun t => { a with status := some t }
  else if kv.1 == "ear.trustworthiness-vector" then
    match kv.2 with
    | JVal.obj fs => (parseVector fs).map fun v => { a with trustVector := some v }
    | _ => Except.error "unexpected type for ear.trustworthiness-vector"
  else if kv.1 == "ear.appraisal-policy-id" then
    match kv.2 with
    | JVal.str s => Except.ok { a with appraisalPolicyID := some s }
    | _ => Except.error "unexpected type for ear.appraisal-policy-id"
  else if kv.1 == "ear.raw-evidence" then
    match kv.2 with
    | JVal.str s => Except.ok { a with rawEvidence := some s }
    | _ => Except.error "unexpected type for ear.raw-evidence"
  else if kv.1 == "ear.veraison.processed-evidence" then
    match kv.2 with
    | JVal.obj fs => Except.ok { a with processedEvidence := some fs }
    | _ => Except.error "unexpected type for ear.veraison.processed-evidence"
  else if kv.1 == "ear.veraison.verifier-added-claims" then
    match kv.2 with
    | JVal.obj fs => Except.ok { a with verifierAddedClaims := some fs }
    | _ => Except.error "unexpected type for ear.veraison.verifier-added-claims"
  else Except.error ("unexpected key " ++ kv.1 ++ " in appraisal")

def parseAppraisalGo (a : Appraisal) :
    List (String × JVal) → Except String Appraisal
  | [] => Except.ok a
  | kv :: rest =>
    match appraisalStep a kv with
    | Except.error e => Except.error e
    | Except.ok a2 => parseAppraisalGo a2 rest

/-- Decode one appraisal object, then check its mandatory field. -/
def parseAppraisal (fs : List (String × JVal)) : Except String Appraisal :=
  match parseAppraisalGo {} fs with
  | Except.error e => Except.error e
  | Except.ok a =>
    if a.status.isNone then Except.error "missing mandatory 'ear.status'"
    else Except.ok a

def parseSubmods : List (String × JVal) → Except String (List (String × Appraisal))
  | [] => Except.ok []
  | (n, v) :: rest =>
    match v with
    | JVal.obj afs =>
      match parseAppraisal afs with
      | Except.error e =>
        Except.error ("invalid value(s) for submods[" ++ n ++ "]: " ++ e)
      | Except.ok a =>
        match parseSubmods rest with
        | Except.error e => Except.error e
        | Except.ok tl => Except.ok ((n, a) :: tl)
    | _ => Except.error ("unexpected type for submods[" ++ n ++ "]")

/-- One decode step at the top level of the result object. -/
def popStep (ar : AttestationResult) (kv : String × JVal) :
    Except String AttestationResult :=
  if kv.1 == "eat_profile" then
    match kv.2 with
    | JVal.str s =>
      if s == EatProfile then Except.ok { ar with profile := some s }
      else Except.error ("invalid value(s) for eat_profile (" ++ s ++ ")")
    | _ => Except.error "unexpected type for eat_profile"
  else if kv.1 == "iat" then
    match kv.2 with
    | JVal.num n => Except.ok { ar with issuedAt := some n }
    | _ => Except.error "unexpected type for iat"
  else if kv.1 == "ear.verifier-id" then
    match kv.2 with
    | JVal.obj fs => (parseVerifierID fs).map fun v => { ar with verifierID := some v }
    | _ => Except.error "unexpected type for ear.verifier-id"
  else if kv.1 == "eat_nonce" then
    match kv.2 with
    | JVal.str s =>
      if nonceLenValid s.length then Except.ok { ar with nonce := some s }
      else Except.error
        ("invalid value(s) for eat_nonce (" ++ toString s.length ++ " bytes)")
    | _ => Except.error "unexpected type for eat_nonce"
  else if kv.1 == "ear.raw-evidence" then
    match kv.2 with
    | JVal.str s => Except.ok { ar with rawEvidence := some s }
    | _ => Except.error "unexpected type for ear.raw-evidence"
  else if kv.1 == "submods" then
    match kv.2 with
    | JVal.obj fs => (parseSubmods fs).map fun l => { ar with submods := l }
    | _ => Except.error "unexpected type for submods"
  else Except.error ("unexpected key " ++ kv.1 ++ " in attestation result")

def populateEntries (ar : AttestationResult) :
    List (String × JVal) → Except String AttestationResult
  | [] => Except.ok ar
  | kv :: rest =>
    match popStep ar kv with
    | Except.error e => Except.error e
    | Except.ok ar2 => populateEntries ar2 rest

/-- Missing mandatory fields as seen from the decode side, in the order
the decoder reports them: `eat_profile`, `ear.verifier-id`, `iat`,
`submods` (JSON key names). -/
def decodeMissingNames (ar : AttestationResult) : List String :=
  (if ar.profile.isNone then ["'eat_profile'"] else []) ++
  (if ar.verifierID.isNone then ["'ear.verifier-id'"] else []) ++
  (if ar.issuedAt.isNone then ["'iat'"] else []) ++
  (if ar.submods.isEmpty then ["'submods'"] else [])

/-- Decode a well-formed top-level JSON object into the model, then
check the mandatory fields; never returns a partially populated model
on error. -/
def populateFromMap (fs : List (String × JVal)) : Except String AttestationResult :=
  match populateEntries {} fs with
  | Except.error e => Except.error e
  | Except.ok ar =>
    match decodeMissingNames ar with
    | [] => Except.ok ar
    | names => Except.error (missingClause names)

/-- Message of the external JSON library when the parsed document's
top-level type does not match the required string-keyed object. -/
def cannotUnmarshalMsg (v : JVal) : String :=
  let tn := match v with
    | JVal.null => "null"
    | JVal.bool _ => "bool"
    | JVal.num _ => "number"
    | JVal.str _ => "string"
    | JVal.arr _ => "array"
    | JVal.obj _ => "object"
  "json: cannot unmarshal " ++ tn ++
    " into Go value of type map[string]interface \x7b\x7d"

/-- Canonical decode.  The byte-level JSON parser is an external
collaborator; its outcome (a verbatim error message, or the parsed
generic value) is the input here.  A parser failure is propagated
verbatim; a non-object document fails with the library's type-mismatch
message; a well-formed object goes through `populateFromMap`. -/
def UnmarshalJSON (parsed : Except String JVal) : Except String AttestationResult :=
  match parsed with
  | Except.error m => Except.error m
  | Except.ok (JVal.obj fs) => populateFromMap fs
  | Except.ok v => Except.error (cannotUnmarshalMsg v)

/- ### Envelope signer / verifier (modelled from the spec, §4.4–§4.5,
   pinned by the Verify/Sign/RoundTrip tests). -/

/-- Error taxonomy of the package (§7): structural parse errors carry
the underlying message verbatim; validation errors carry the aggregated
findings; signature failure is a single, deliberately undifferentiated
class; backend errors come from the cryptographic primitive. -/
inductive EarError : Type where
  | parse (msg : String) : EarError
  | validation (msg : String) : EarError
  | signature : EarError
  | backend (msg : String) : EarError
deriving DecidableEq

/-- The signing/verification primitive, an external collaborator: keys
are opaque strings; signing input is the protected header and the
payload document (their base64url transport is the JOSE library's
bijection). -/
structure SigScheme : Type where
  sign : String → JVal → JVal → String
  sverify : String → JVal → JVal → String → Bool

/-- A compact token: the list of its (base64url-decoded) segments.  A
well-framed token has exactly three — header document, payload
document, signature string. -/
abbrev Token := List JVal

def mkHeader (alg : String) : JVal := JVal.obj [("alg", JVal.str alg)]

/-- Extract the algorithm from a protected header document. -/
def headerAlg (h : JVal) : Option String :=
  match h with
  | JVal.obj fs =>
    match fs.lookup "alg" with
    | some (JVal.str a) => some a
    | _ => none
  | _ => none

/-- Sign: full encode-side validation first (an invalid model is never
signed and fails identically to a plain encode failure), then a
three-segment compact token. -/
def Sign (sch : SigScheme) (alg privKey : String) (ar : AttestationResult) :
    Except EarError Token :=
  match MarshalJSON ar with
  | Except.error e => Except.error (EarError.validation e)
  | Except.ok payload =>
    Except.ok [mkHeader alg, payload,
      JVal.str (sch.sign privKey (mkHeader alg) payload)]

/-- Mandatory fields checked when decoding on the verify path.  Unlike
plain decode, the verify path does not flag a missing `iat` (the JWT
layer owns that claim there): the package's own test pins the error for
an empty-object payload as missing eat_profile, ear.verifier-id and
submods only. -/
def verifyMissingNames (ar : AttestationResult) : List String :=
  (if ar.profile.isNone then ["'eat_profile'"] else []) ++
  (if ar.verifierID.isNone then ["'ear.verifier-id'"] else []) ++
  (if ar.submods.isEmpty then ["'submods'"] else [])

/-- Decode of a well-formed object payload on the verify path: the same
field population as plain decode, followed by the verify-path mandatory
check of `verifyMissingNames`. -/
def populateFromMapVerify (fs : List (String × JVal)) :
    Except String AttestationResult :=
  match populateEntries {} fs with
  | Except.error e => Except.error e
  | Except.ok ar =>
    match verifyMissingNames ar with
    | [] => Except.ok ar
    | names => Except.error (missingClause names)

/-- The checks applied to a well-framed token: header parse, then the
uniform signature gate (wrong algorithm — including "none" — and a
non-verifying signature fail identically), then the verify-path decode
with its mandatory-field validation. -/
def verifyChecked (sch : SigScheme) (h p : JVal) (sig expAlg pubKey : String) :
    Except EarError AttestationResult :=
  match headerAlg h with
  | none => Except.error (EarError.parse
      "failed to parse jws: failed to parse JOSE headers")
  | some a =>
    if a == expAlg && sch.sverify pubKey h p sig then
      match p with
      | JVal.obj fs =>
        match populateFromMapVerify fs with
        | Except.error e => Except.error (EarError.validation e)
        | Except.ok ar => Except.ok ar
      | v => Except.error (EarError.parse (cannotUnmarshalMsg v))
    else Except.error EarError.signature

/-- Verify: strict framing first (segment count, signature segment
shape), then the checks of `verifyChecked`. -/
def Verify (sch : SigScheme) (tok : Token) (expAlg pubKey : String) :
    Except EarError AttestationResult :=
  match tok with
  | [h, p, s] =>
    match s with
    | JVal.str sig => verifyChecked sch h p sig expAlg pubKey
    | _ => Except.error (EarError.parse "invalid signature segment")
  | _ => Except.error (EarError.parse
      "invalid compact serialization format: invalid number of segments")

/- ### Trust-tier derivation (modelled from the spec, §4.1, pinned by
   `TestUpdateStatusFromTrustVector`). -/

/-- Candidate tier of a trust vector: the most severe band present
among its claims; an all-NoClaim vector yields None. -/
def candidateTier (v : TrustVector) : TrustTier :=
  v.claims.foldl (fun acc c => max acc (tierOfClaim c)) TrustTierNone

/-- Derivation on one appraisal: merge the candidate of its vector into
the existing status through the monotonic ratchet `max`; an absent
status or vector counts as None. -/
def Appraisal.UpdateStatusFromTrustVector (a : Appraisal) : Appraisal :=
  let cand := match a.trustVector with
    | none => TrustTierNone
    | some v => candidateTier v
  { a with status := some (max (a.status.getD TrustTierNone) cand) }

/-- Derivation over a whole result: every submodule's appraisal is
updated. -/
def UpdateStatusFromTrustVector (ar : AttestationResult) : AttestationResult :=
  { ar with submods := ar.submods.map fun p =>
      (p.1, p.2.UpdateStatusFromTrustVector) }

/-- Fresh result for one scheme name: profile set, one appraisal with
status None and an all-NoClaim vector. -/
def NewAttestationResult (name : String) : AttestationResult :=
  { profile := some EatProfile,
    submods := [(name, { status := some TrustTierNone, trustVector := some {} })] }

/-- One step of the life of an appraisal: a derivation call, or a manual
override writing the status directly. -/
inductive ArStep : Type where
  | derive : ArStep
  | override (t : TrustTier) : ArStep
  | setVector (v : TrustVector) : ArStep

def applyStep (a : Appraisal) : ArStep → Appraisal
  | ArStep.derive => a.UpdateStatusFromTrustVector
  | ArStep.override t => { a with status := some t }
  | ArStep.setVector v => { a with trustVector := some v }

def runSteps (a : Appraisal) : List ArStep → Appraisal
  | [] => a
  | s :: rest => runSteps (applyStep a s) rest

def statusOf (a : Appraisal) : TrustTier := a.status.getD TrustTierNone

/- ### NAETTS tee-info conversion (`nae.go`). -/

structure NAETTSInfo : Type where
  sessionID : Option String := none
  infrastructure : Option String := none
  identity : Option String := none

/-- Modelled from the spec: the helper `str` of the `ear` package (its
definition is not among the given sources) converts a decoded JSON value
to a Go string; only its totality matters to the properties below. -/
def strOf (v : JVal) : String :=
  match v with
  | JVal.str s => s
  | JVal.num n => toString n
  | JVal.bool b => toString b
  | JVal.null => "null"
  | _ => ""

/-- The keys the naetts object may contain. -/
abbrev naettsAllowedKey (k : String) : Prop :=
  k = "sessionid" ∨ k = "infrastructure" ∨ k = "identity"

def naettsGo (info : NAETTSInfo) :
    List (String × JVal) → Except String NAETTSInfo
  | [] => Except.ok info
  | (k, v) :: rest =>
    let s := strOf v
    if k = "sessionid" then naettsGo { info with sessionID := some s } rest
    else if k = "infrastructure" then
      naettsGo { info with infrastructure := some s } rest
    else if k = "identity" then naettsGo { info with identity := some s } rest
    else Except.error
      ("found unknown key \"" ++ k ++ "\" in \"naetts\" object")

/-- The `ToNAETTSInfo` function from `nae.go`: a non-map input is rejected with a
fixed message; a map is folded key by key, unknown keys aborting with an
error naming the key (the Go `nil` result on error is the `Except.error`
case — no partially populated value escapes). -/
def ToNAETTSInfo (v : JVal) : Except String NAETTSInfo :=
  match v with
  | JVal.obj fields => naettsGo {} fields
  | _ => Except.error "unexpected format for \"tee-info\""

/- ### Roundtrip infrastructure: decoding what encode produced. -/

theorem toTrustClaim_num_ok (c : TrustClaim) (h : claimInRange c = true) :
    toTrustClaim (JVal.num c) = Except.ok c := by
  simp [toTrustClaim, h]

theorem tierValid_cases (t : TrustTier) (h : tierValid t = true) :
    t = TrustTierNone ∨ t = TrustTierAffirming ∨ t = TrustTierWarning ∨
      t = TrustTierContraindicated := by
  simpa [tierValid, or_assoc] using h

theorem tierOfName_tierName (t : TrustTier) (h : tierValid t = true) :
    tierOfName (tierName t) = some t := by
  rcases tierValid_cases t h with h1 | h1 | h1 | h1 <;> subst h1 <;> rfl

theorem toTrustTier_name_ok (t : TrustTier) (h : tierValid t = true) :
    toTrustTier (JVal.str (tierName t)) = Except.ok t := by
  simp [toTrustTier, tierOfName_tierName t h]

theorem parseVerifier_roundtrip (v : VerifierIdentity) :
    parseVerifierID (verifierFields v) = Except.ok v := by
  obtain ⟨b, d⟩ := v
  cases b <;> cases d <;> rfl

theorem parseVector_roundtrip (v : TrustVector)
    (h : v.claims.all claimInRange = true) :
    parseVector (vectorFields v) = Except.ok v := by
  obtain ⟨c1, c2, c3, c4, c5, c6, c7, c8⟩ := v
  simp only [TrustVector.claims, List.all_cons, List.all_nil, Bool.and_eq_true,
    Bool.and_true] at h
  obtain ⟨h1, h2, h3, h4, h5, h6, h7, h8⟩ := h
  simp [parseVector, vectorFields, parseVectorGo, vectorStep, Except.map,
    toTrustClaim_num_ok _ h1, toTrustClaim_num_ok _ h2, toTrustClaim_num_ok _ h3,
    toTrustClaim_num_ok _ h4, toTrustClaim_num_ok _ h5, toTrustClaim_num_ok _ h6,
    toTrustClaim_num_ok _ h7, toTrustClaim_num_ok _ h8]

/- Appraisal-object decoding consumes the encoder's segments one by one;
each lemma disposes of one optional segment, in continuation style. -/

theorem parseGo_status (a0 : Appraisal) (o : Option TrustTier)
    (ho : ∀ t, o = some t → tierValid t = true) (rest : List (String × JVal)) :
    parseAppraisalGo a0 (statusEntryOf o ++ rest) =
      parseAppraisalGo { a0 with status := o.or a0.status } rest := by
  cases o with
  | none => rfl
  | some t =>
    simp [statusEntryOf, parseAppraisalGo, appraisalStep,
      toTrustTier_name_ok t (ho t rfl), Except.map, Option.or]

theorem parseGo_vector (a0 : Appraisal) (o : Option TrustVector)
    (ho : ∀ v, o = some v → v.claims.all claimInRange = true)
    (rest : List (String × JVal)) :
    parseAppraisalGo a0 (vectorEntryOf o ++ rest) =
      parseAppraisalGo { a0 with trustVector := o.or a0.trustVector } rest := by
  cases o with
  | none => rfl
  | some v =>
    simp [vectorEntryOf, parseAppraisalGo, appraisalStep,
      parseVector_roundtrip v (ho v rfl), Except.map, Option.or]

theorem parseGo_policy (a0 : Appraisal) (o : Option String)
    (rest : List (String × JVal)) :
    parseAppraisalGo a0 (optStrEntry "ear.appraisal-policy-id" o ++ rest) =
      parseAppraisalGo { a0 with appraisalPolicyID := o.or a0.appraisalPolicyID } rest := by
  cases o <;> rfl

theorem parseGo_rawEvidence (a0 : Appraisal) (o : Option String)
    (rest : List (String × JVal)) :
    parseAppraisalGo a0 (optStrEntry "ear.raw-evidence" o ++ rest) =
      parseAppraisalGo { a0 with rawEvidence := o.or a0.rawEvidence } rest := by
  cases o <;> rfl

theorem parseGo_processedEvidence (a0 : Appraisal)
    (o : Option (List (String × JVal))) (rest : List (String × JVal)) :
    parseAppraisalGo a0 (peEntryOf o ++ rest) =
      parseAppraisalGo { a0 with processedEvidence := o.or a0.processedEvidence } rest := by
  cases o <;> rfl

theorem parseGo_verifierAddedClaims (a0 : Appraisal)
    (o : Option (List (String × JVal))) (rest : List (String × JVal)) :
    parseAppraisalGo a0 (vacEntryOf o ++ rest) =
      parseAppraisalGo { a0 with verifierAddedClaims := o.or a0.verifierAddedClaims } rest := by
  cases o <;> rfl

/-- Facts extracted from a valid appraisal. -/
theorem appraisalError_none (a : Appraisal) (h : appraisalError a = none) :
    a.status.isNone = false ∧
    (∀ t, a.status = some t → tierValid t = true) ∧
    (∀ v, a.trustVector = some v → v.claims.all claimInRange = true) := by
  have hc : ((appraisalMissingRendered a).isEmpty && (appraisalInvalid a).isEmpty) = true := by
    by_contra hne
    rw [Bool.not_eq_true] at hne
    simp [appraisalError, hne] at h
  rw [Bool.and_eq_true, List.isEmpty_iff, List.isEmpty_iff] at hc
  obtain ⟨hm, hi⟩ := hc
  unfold appraisalMissingRendered at hm
  unfold appraisalInvalid at hi
  rw [List.append_eq_nil] at hi
  obtain ⟨hi1, hi2⟩ := hi
  refine ⟨?_, ?_, ?_⟩
  · by_contra hne
    rw [Bool.not_eq_false] at hne
    simp [hne] at hm
  · intro t ht
    rw [ht] at hi1
    by_contra hne
    rw [Bool.not_eq_true] at hne
    simp [hne] at hi1
  · intro v hv
    rw [hv] at hi2
    by_contra hne
    rw [Bool.not_eq_true] at hne
    simp [hne] at hi2

theorem appraisal_roundtrip (a : Appraisal) (h : appraisalError a = none) :
    parseAppraisal (appraisalFields a) = Except.ok a := by
  obtain ⟨hstat, htier, hvec⟩ := appraisalError_none a h
  unfold parseAppraisal
  rw [show appraisalFields a =
      statusEntryOf a.status ++
      (vectorEntryOf a.trustVector ++
       (optStrEntry "ear.appraisal-policy-id" a.appraisalPolicyID ++
        (optStrEntry "ear.raw-evidence" a.rawEvidence ++
         (peEntryOf a.processedEvidence ++
          (vacEntryOf a.verifierAddedClaims ++ [])))))
    from by simp [appraisalFields]]
  rw [parseGo_status _ _ htier, parseGo_vector _ _ hvec, parseGo_policy,
    parseGo_rawEvidence, parseGo_processedEvidence, parseGo_verifierAddedClaims]
  simp only [Option.or_none]
  simp [parseAppraisalGo, hstat]

theorem submodFindings_nil (l : List (String × Appraisal))
    (h : submodFindings l = []) :
    ∀ p ∈ l, appraisalError p.2 = none := by
  induction l with
  | nil => intro p hp; cases hp
  | cons q rest ih =>
    obtain ⟨n, a⟩ := q
    rw [submodFindings, List.append_eq_nil] at h
    obtain ⟨h1, h2⟩ := h
    intro p hp
    rcases List.mem_cons.mp hp with hp | hp
    · subst hp
      cases he : appraisalError a with
      | none => rfl
      | some e => rw [he] at h1; cases h1
    · exact ih h2 p hp

theorem parseSubmods_roundtrip (l : List (String × Appraisal))
    (h : ∀ p ∈ l, appraisalError p.2 = none) :
    parseSubmods (submodsFields l) = Except.ok l := by
  induction l with
  | nil => rfl
  | cons q rest ih =>
    obtain ⟨n, a⟩ := q
    have ha : appraisalError a = none := h (n, a) (List.mem_cons_self _ _)
    rw [submodsFields, parseSubmods, appraisal_roundtrip a ha,
      ih fun p hp => h p (List.mem_cons_of_mem _ hp)]

/- Top-level decoding of the encoder's segments, continuation style. -/

theorem popGo_profile (a0 : AttestationResult) (o : Option String)
    (ho : ∀ s, o = some s → s = EatProfile) (rest : List (String × JVal)) :
    populateEntries a0 (optStrEntry "eat_profile" o ++ rest) =
      populateEntries { a0 with profile := o.or a0.profile } rest := by
  cases o with
  | none => rfl
  | some s =>
    have hs := ho s rfl
    subst hs
    rfl

theorem popGo_iat (a0 : AttestationResult) (o : Option Int)
    (rest : List (String × JVal)) :
    populateEntries a0 (optNumEntry "iat" o ++ rest) =
      populateEntries { a0 with issuedAt := o.or a0.issuedAt } rest := by
  cases o <;> rfl

theorem popGo_verifier (a0 : AttestationResult) (o : Option VerifierIdentity)
    (rest : List (String × JVal)) :
    populateEntries a0 (verifierEntryOf o ++ rest) =
      populateEntries { a0 with verifierID := o.or a0.verifierID } rest := by
  cases o with
  | none => rfl
  | some v =>
    simp [verifierEntryOf, populateEntries, popStep, parseVerifier_roundtrip v,
      Except.map, Option.or]

theorem popGo_nonce (a0 : AttestationResult) (o : Option String)
    (ho : ∀ s, o = some s → nonceLenValid s.length = true)
    (rest : List (String × JVal)) :
    populateEntries a0 (optStrEntry "eat_nonce" o ++ rest) =
      populateEntries { a0 with nonce := o.or a0.nonce } rest := by
  cases o with
  | none => rfl
  | some s =>
    simp [optStrEntry, populateEntries, popStep, ho s rfl, Option.or]

theorem popGo_rawEvidence (a0 : AttestationResult) (o : Option String)
    (rest : List (String × JVal)) :
    populateEntries a0 (optStrEntry "ear.raw-evidence" o ++ rest) =
      populateEntries { a0 with rawEvidence := o.or a0.rawEvidence } rest := by
  cases o <;> rfl

theorem popGo_submods (a0 : AttestationResult) (l : List (String × Appraisal))
    (h : ∀ p ∈ l, appraisalError p.2 = none) (rest : List (String × JVal)) :
    populateEntries a0 (submodsEntryOf l ++ rest) =
      populateEntries { a0 with submods := if l.isEmpty then a0.submods else l } rest := by
  cases l with
  | nil => rfl
  | cons q tl =>
    simp [submodsEntryOf, populateEntries, popStep,
      parseSubmods_roundtrip _ h, Except.map]

/-- Facts extracted from a model with no invalid-value findings. -/
theorem invalidFindings_nil (ar : AttestationResult)
    (h : invalidFindings ar = []) :
    (∀ s, ar.profile = some s → s = EatProfile) ∧
    (∀ s, ar.nonce = some s → nonceLenValid s.length = true) ∧
    (∀ p ∈ ar.submods, appraisalError p.2 = none) := by
  unfold invalidFindings at h
  rw [List.append_eq_nil] at h
  obtain ⟨h12, h3⟩ := h
  rw [List.append_eq_nil] at h12
  obtain ⟨h1, h2⟩ := h12
  refine ⟨?_, ?_, submodFindings_nil _ h3⟩
  · intro s hs
    rw [hs] at h1
    by_contra hne
    have hb : (s == EatProfile) = false := beq_eq_false_iff_ne.mpr hne
    simp [hb] at h1
  · intro s hs
    rw [hs] at h2
    by_contra hne
    rw [Bool.not_eq_true] at hne
    simp [hne] at h2

theorem populate_roundtrip (ar : AttestationResult)
    (h : invalidFindings ar = []) :
    populateEntries {} (arFields ar) = Except.ok ar := by
  obtain ⟨hprof, hnonce, hsub⟩ := invalidFindings_nil ar h
  obtain ⟨prof, iat, vid, non, raw, subs⟩ := ar
  rw [show arFields ⟨prof, iat, vid, non, raw, subs⟩ =
      optStrEntry "eat_profile" prof ++
      (optNumEntry "iat" iat ++
       (verifierEntryOf vid ++
        (optStrEntry "eat_nonce" non ++
         (optStrEntry "ear.raw-evidence" raw ++
          (submodsEntryOf subs ++ [])))))
    from by simp [arFields]]
  rw [popGo_profile _ _ hprof, popGo_iat, popGo_verifier,
    popGo_nonce _ _ hnonce, popGo_rawEvidence, popGo_submods _ _ hsub]
  simp only [Option.or_none]
  cases subs with
  | nil => simp [populateEntries]
  | cons q tl => simp [populateEntries]

/-- A valid model has no missing-mandatory and no invalid-value findings. -/
theorem validate_none (ar : AttestationResult) (h : validate ar = none) :
    topMissingRendered ar = [] ∧ invalidFindings ar = [] := by
  have hc : ((topMissingRendered ar).isEmpty && (invalidFindings ar).isEmpty) = true := by
    by_contra hne
    rw [Bool.not_eq_true] at hne
    simp [validate, hne] at h
  rw [Bool.and_eq_true, List.isEmpty_iff, List.isEmpty_iff] at hc
  exact hc

theorem topMissing_nil (ar : AttestationResult) (h : topMissingRendered ar = []) :
    ar.profile.isNone = false ∧ ar.issuedAt.isNone = false ∧
    ar.verifierID.isNone = false ∧ ar.submods.isEmpty = false := by
  unfold topMissingRendered at h
  rw [List.append_eq_nil] at h
  obtain ⟨h123, h4⟩ := h
  rw [List.append_eq_nil] at h123
  obtain ⟨h12, h3⟩ := h123
  rw [List.append_eq_nil] at h12
  obtain ⟨h1, h2⟩ := h12
  refine ⟨?_, ?_, ?_, ?_⟩
  · by_contra hne
    rw [Bool.not_eq_false] at hne
    rw [if_pos hne] at h1
    cases h1
  · by_contra hne
    rw [Bool.not_eq_false] at hne
    rw [if_pos hne] at h2
    cases h2
  · by_contra hne
    rw [Bool.not_eq_false] at hne
    rw [if_pos hne] at h3
    cases h3
  · by_contra hne
    rw [Bool.not_eq_false] at hne
    rw [if_pos hne] at h4
    cases h4

theorem decodeMissing_nil (ar : AttestationResult)
    (h : topMissingRendered ar = []) : decodeMissingNames ar = [] := by
  obtain ⟨h1, h2, h3, h4⟩ := topMissing_nil ar h
  simp [decodeMissingNames, h1, h2, h3, h4]

/-- Decoding what a valid model encodes to reproduces the model exactly. -/
theorem populateFromMap_roundtrip (ar : AttestationResult)
    (h : validate ar = none) :
    populateFromMap (arFields ar) = Except.ok ar := by
  obtain ⟨hm, hi⟩ := validate_none ar h
  unfold populateFromMap
  rw [populate_roundtrip ar hi]
  simp [decodeMissing_nil ar hm]

theorem verifyMissing_nil (ar : AttestationResult)
    (h : topMissingRendered ar = []) : verifyMissingNames ar = [] := by
  obtain ⟨h1, h2, h3, h4⟩ := topMissing_nil ar h
  simp [verifyMissingNames, h1, h3, h4]

/-- The verify-path decode also reproduces a valid model exactly. -/
theorem populateFromMapVerify_roundtrip (ar : AttestationResult)
    (h : validate ar = none) :
    populateFromMapVerify (arFields ar) = Except.ok ar := by
  obtain ⟨hm, hi⟩ := validate_none ar h
  unfold populateFromMapVerify
  rw [populate_roundtrip ar hi]
  simp [verifyMissing_nil ar hm]

/- ### Trust-tier derivation: characterization of the candidate and of
   runs of derivation calls and overrides. -/

/-- Candidate of an appraisal: its vector's candidate, None when the
vector is absent. -/
def candOf (a : Appraisal) : TrustTier :=
  match a.trustVector with
  | none => TrustTierNone
  | some v => candidateTier v

theorem foldlMax_init_le (f : Int → Int) (l : List Int) (init : Int) :
    init ≤ l.foldl (fun acc c => max acc (f c)) init := by
  induction l generalizing init with
  | nil => exact le_refl _
  | cons c rest ih => exact le_trans (le_max_left _ _) (ih _)

theorem foldlMax_mem_le (f : Int → Int) (l : List Int) (init : Int)
    (c : Int) (hc : c ∈ l) :
    f c ≤ l.foldl (fun acc c => max acc (f c)) init := by
  induction l generalizing init with
  | nil => cases hc
  | cons d rest ih =>
    rcases List.mem_cons.mp hc with h | h
    · subst h
      exact le_trans (le_max_right init (f c)) (foldlMax_init_le f rest _)
    · exact ih _ h

theorem foldlMax_attained (f : Int → Int) (l : List Int) (init : Int) :
    l.foldl (fun acc c => max acc (f c)) init = init ∨
      ∃ c ∈ l, l.foldl (fun acc c => max acc (f c)) init = f c := by
  induction l generalizing init with
  | nil => exact Or.inl rfl
  | cons d rest ih =>
    rcases ih (max init (f d)) with h | ⟨c, hc, h⟩
    · rcases max_choice init (f d) with hm | hm
      · exact Or.inl (by rw [List.foldl_cons, h, hm])
      · exact Or.inr ⟨d, List.mem_cons_self _ _, by rw [List.foldl_cons, h, hm]⟩
    · exact Or.inr ⟨c, List.mem_cons_of_mem _ hc, h⟩

/-- The candidate dominates the band of every claim in the vector. -/
theorem candidateTier_ge (v : TrustVector) (c : TrustClaim) (hc : c ∈ v.claims) :
    tierOfClaim c ≤ candidateTier v :=
  foldlMax_mem_le tierOfClaim v.claims TrustTierNone c hc

theorem candidateTier_nonneg (v : TrustVector) :
    TrustTierNone ≤ candidateTier v :=
  foldlMax_init_le tierOfClaim v.claims TrustTierNone

/-- The candidate is None or the band of some claim actually present. -/
theorem candidateTier_attained (v : TrustVector) :
    candidateTier v = TrustTierNone ∨
      ∃ c ∈ v.claims, candidateTier v = tierOfClaim c :=
  foldlMax_attained tierOfClaim v.claims TrustTierNone

/-- An all-NoClaim vector yields candidate None. -/
theorem candidateTier_noclaim (v : TrustVector)
    (h : ∀ c ∈ v.claims, c = NoClaim) : candidateTier v = TrustTierNone := by
  rcases candidateTier_attained v with h0 | ⟨c, hc, h0⟩
  · exact h0
  · rw [h0, h c hc]
    rfl

theorem statusOf_update (a : Appraisal) :
    statusOf a.UpdateStatusFromTrustVector = max (statusOf a) (candOf a) := by
  cases h : a.trustVector <;>
    simp [Appraisal.UpdateStatusFromTrustVector, candOf, statusOf, h]

theorem update_trustVector (a : Appraisal) :
    a.UpdateStatusFromTrustVector.trustVector = a.trustVector := rfl

/-- Derivation is idempotent for a fixed vector. -/
theorem update_idem (a : Appraisal) :
    a.UpdateStatusFromTrustVector.UpdateStatusFromTrustVector =
      a.UpdateStatusFromTrustVector := by
  obtain ⟨st, tv, pol, raw, pe, vac⟩ := a
  cases tv <;>
    simp [Appraisal.UpdateStatusFromTrustVector, max_assoc]

/-- A step sequence where every manual override writes a status at least
as severe as the one it replaces. -/
def okSteps : Appraisal → List ArStep → Prop
  | _, [] => True
  | a, s :: rest =>
    (match s with
     | ArStep.override t => statusOf a ≤ t
     | _ => True) ∧ okSteps (applyStep a s) rest

/-- Every claim's tiers derived along a run, each computed from the
vector in force when the derivation call was made. -/
def derivedCandidates : Appraisal → List ArStep → List TrustTier
  | _, [] => []
  | a, s :: rest =>
    (match s with
     | ArStep.derive => [candOf a]
     | _ => []) ++ derivedCandidates (applyStep a s) rest

theorem step_mono (a : Appraisal) (s : ArStep)
    (h : match s with
         | ArStep.override t => statusOf a ≤ t
         | _ => True) :
    statusOf a ≤ statusOf (applyStep a s) := by
  cases s with
  | derive =>
    rw [applyStep, statusOf_update]
    exact le_max_left _ _
  | override t => exact le_of_le_of_eq h rfl
  | setVector v => exact le_refl _

theorem runSteps_mono (steps : List ArStep) (a : Appraisal)
    (h : okSteps a steps) :
    statusOf a ≤ statusOf (runSteps a steps) := by
  induction steps generalizing a with
  | nil => exact le_refl _
  | cons s rest ih =>
    obtain ⟨h1, h2⟩ := h
    exact le_trans (step_mono a s h1) (ih _ h2)

theorem derivedCandidates_le (steps : List ArStep) (a : Appraisal)
    (h : okSteps a steps) (c : TrustTier)
    (hc : c ∈ derivedCandidates a steps) :
    c ≤ statusOf (runSteps a steps) := by
  induction steps generalizing a with
  | nil => cases hc
  | cons s rest ih =>
    obtain ⟨h1, h2⟩ := h
    cases s with
    | derive =>
      simp only [derivedCandidates, List.singleton_append] at hc
      rcases List.mem_cons.mp hc with hm | hm
      · subst hm
        refine le_trans ?_ (runSteps_mono rest _ h2)
        rw [applyStep, statusOf_update]
        exact le_max_right _ _
      · exact ih _ h2 hm
    | override t =>
      simp only [derivedCandidates, List.nil_append] at hc
      exact ih _ h2 hc
    | setVector v =>
      simp only [derivedCandidates, List.nil_append] at hc
      exact ih _ h2 hc

/- ### Fixtures from the package's test suite. -/

def testIAT : Int := 1666091373

def testVerifierID : VerifierIdentity :=
  { build := some "rrtrap-v1.0.0", developer := some "Acme Inc." }

/-- The test suite's fully populated result with Veraison extensions. -/
def testAttestationResultsWithVeraisonExtns : AttestationResult :=
  { profile := some EatProfile,
    issuedAt := some testIAT,
    verifierID := some testVerifierID,
    submods := [("test",
      { status := some TrustTierAffirming,
        appraisalPolicyID := some "policy://test/01234",
        processedEvidence := some [("k1", JVal.str "v1"), ("k2", JVal.str "v2")],
        verifierAddedClaims := some [("foo", JVal.str "bar"), ("bar", JVal.str "baz")] })] }

/- Replication of the `TestToJSON_fail` vectors. -/

theorem earEncodeFailVec1 :
    validate {} = some "missing mandatory 'eat_profile', 'iat', 'verifier-id', 'submods' (at least one appraisal must be present)" := by
  rfl

theorem earEncodeFailVec2 :
    validate { submods := [] } = some "missing mandatory 'eat_profile', 'iat', 'verifier-id', 'submods' (at least one appraisal must be present)" := by
  rfl

theorem earEncodeFailVec3 :
    validate { issuedAt := some testIAT, submods := [("test", {})] } =
      some "missing mandatory 'eat_profile', 'verifier-id'; invalid value(s) for submods[test]: missing mandatory 'ear.status'" := by
  rfl

theorem earEncodeFailVec4 :
    validate { profile := some EatProfile,
               submods := [("test", { status := some TrustTierAffirming })] } =
      some "missing mandatory 'iat', 'verifier-id'" := by
  rfl

theorem earEncodeFailVec5 :
    validate { profile := some "1.2.3.4.5",
               submods := [("test", { status := some TrustTierAffirming })] } =
      some "missing mandatory 'iat', 'verifier-id'; invalid value(s) for eat_profile (1.2.3.4.5)" := by
  rfl

theorem earEncodeFailVec6 :
    validate { profile := some EatProfile, issuedAt := some testIAT,
               verifierID := some testVerifierID, nonce := some "1337",
               submods := [("test", { status := some TrustTierAffirming })] } =
      some "invalid value(s) for eat_nonce (4 bytes)" := by
  rfl

/- Replication of the `TestUnmarshalJSON_fail` vectors. -/

theorem earDecodeFailVec1 :
    UnmarshalJSON (Except.error "unexpected end of JSON input") =
      Except.error "unexpected end of JSON input" := by
  rfl

theorem earDecodeFailVec2 :
    UnmarshalJSON (Except.ok (JVal.arr [])) =
      Except.error "json: cannot unmarshal array into Go value of type map[string]interface \x7b\x7d" := by
  rfl

theorem earDecodeFailVec3 :
    UnmarshalJSON (Except.ok (JVal.obj [])) =
      Except.error "missing mandatory 'eat_profile', 'ear.verifier-id', 'iat', 'submods'" := by
  rfl

/- Replication of `Test_populateFromMap`. -/

theorem earPopulateFromMapVec :
    populateFromMap
      [("submods", JVal.obj [("test", JVal.obj
         [("ear.status", JVal.num 2),
          ("ear.trustworthiness-vector", JVal.obj
            [("instance-identity", JVal.num 0), ("configuration", JVal.num 0),
             ("executables", JVal.num 2), ("file-system", JVal.num 0),
             ("hardware", JVal.num 0), ("runtime-opaque", JVal.num 0),
             ("storage-opaque", JVal.num 0), ("sourced-data", JVal.num 0)]),
          ("ear.appraisal-policy-id", JVal.str "foo")])]),
       ("ear.raw-evidence", JVal.str "SSBkaWRuJ3QgZG8gaXQ"),
       ("iat", JVal.num 1234),
       ("eat_profile", JVal.str EatProfile),
       ("ear.verifier-id", JVal.obj [("build", JVal.str "rrtrap-v1.0.0"),
                                     ("developer", JVal.str "Acme Inc.")])] =
      Except.ok
        { profile := some EatProfile, issuedAt := some 1234,
          verifierID := some testVerifierID,
          rawEvidence := some "SSBkaWRuJ3QgZG8gaXQ",
          submods := [("test",
            { status := some TrustTierAffirming,
              trustVector := some { executables := ApprovedRuntimeClaim },
              appraisalPolicyID := some "foo" })] } := by
  rfl

/- Replication of `TestUpdateStatusFromTrustVector`. -/

theorem earUpdateStatusSequence :
    ((NewAttestationResult "test").submods.map fun p =>
        (p.1, statusOf p.2.UpdateStatusFromTrustVector)) = [("test", TrustTierNone)] ∧
    statusOf (Appraisal.UpdateStatusFromTrustVector
      { status := some TrustTierNone,
        trustVector := some { configuration := ApprovedConfigClaim } }) =
      TrustTierAffirming ∧
    statusOf (Appraisal.UpdateStatusFromTrustVector
      { status := some TrustTierWarning,
        trustVector := some { configuration := ApprovedConfigClaim } }) =
      TrustTierWarning ∧
    statusOf (Appraisal.UpdateStatusFromTrustVector
      { status := some TrustTierWarning,
        trustVector := some { configuration := UnsupportableConfigClaim } }) =
      TrustTierContraindicated := by
  refine ⟨rfl, ?_, ?_, ?_⟩ <;> rfl

/- ### Spec-side characterization of the missing-mandatory report. -/

/-- Is the given mandatory top-level field absent from the model? -/
def mandatoryFieldAbsent (ar : AttestationResult) (n : String) : Bool :=
  (n == "eat_profile" && ar.profile.isNone) ||
  (n == "iat" && ar.issuedAt.isNone) ||
  (n == "verifier-id" && ar.verifierID.isNone) ||
  (n == "submods" && ar.submods.isEmpty)

/-- The absent mandatory top-level fields, in fixed declaration order. -/
def mandatoryAbsentNames (ar : AttestationResult) : List String :=
  ["eat_profile", "iat", "verifier-id", "submods"].filter (mandatoryFieldAbsent ar)

/-- How encode renders one missing field name in the error message. -/
def renderMissingName (n : String) : String :=
  if n == "submods" then "'submods' (at least one appraisal must be present)"
  else "'" ++ n ++ "'"

theorem marshal_error_validate (ar : AttestationResult) (e : String)
    (h : MarshalJSON ar = Except.error e) : validate ar = some e := by
  unfold MarshalJSON at h
  cases hv : validate ar with
  | none => rw [hv] at h; cases h
  | some e' =>
    rw [hv] at h
    injection h with he
    exact congrArg some he

theorem validate_some_eq (ar : AttestationResult) (e : String)
    (hv : validate ar = some e) :
    e = String.intercalate "; "
      ((if (topMissingRendered ar).isEmpty then []
        else [missingClause (topMissingRendered ar)]) ++ invalidFindings ar) := by
  simp only [validate] at hv
  by_cases hc : ((topMissingRendered ar).isEmpty && (invalidFindings ar).isEmpty) = true
  · rw [if_pos hc] at hv
    cases hv
  · rw [if_neg hc] at hv
    injection hv with he
    exact he.symm

theorem topMissing_spec (ar : AttestationResult) :
    topMissingRendered ar = (mandatoryAbsentNames ar).map renderMissingName := by
  obtain ⟨prof, iat, vid, non, raw, subs⟩ := ar
  cases prof <;> cases iat <;> cases vid <;> cases subs <;>
    simp [topMissingRendered, mandatoryAbsentNames, mandatoryFieldAbsent,
      renderMissingName, List.filter]

/-- C1: whenever encode-side validation fails, MarshalJSON returns one
single error that accumulates every violation found in one pass: the
missing mandatory top-level fields (eat_profile, iat, verifier-id,
submods — an empty or absent submods map counting as missing) exactly
as characterized by `mandatoryAbsentNames`, in fixed declaration order,
followed after "; " by every invalid-value finding; it never stops at
the first failure. -/
theorem C1_marshal_error_accumulates (ar : AttestationResult) (e : String)
    (h : MarshalJSON ar = Except.error e) :
    topMissingRendered ar = (mandatoryAbsentNames ar).map renderMissingName ∧
    e = String.intercalate "; "
      ((if (mandatoryAbsentNames ar).isEmpty then []
        else [missingClause ((mandatoryAbsentNames ar).map renderMissingName)]) ++
       invalidFindings ar) := by
  have hspec := topMissing_spec ar
  refine ⟨hspec, ?_⟩
  have he := validate_some_eq ar e (marshal_error_validate ar e h)
  rw [he, hspec]
  have hmap : ((mandatoryAbsentNames ar).map renderMissingName).isEmpty =
      (mandatoryAbsentNames ar).isEmpty := by
    cases mandatoryAbsentNames ar <;> rfl
  rw [hmap]

/-- C1 witness: a model simultaneously missing two mandatory fields and
carrying an invalid profile; the single error lists all three findings. -/
theorem C1_marshal_error_accumulates_witness :
    topMissingRendered
        { profile := some "1.2.3.4.5",
          submods := [("test", { status := some TrustTierAffirming })] } =
      (mandatoryAbsentNames
        { profile := some "1.2.3.4.5",
          submods := [("test", { status := some TrustTierAffirming })] }).map
          renderMissingName ∧
    "missing mandatory 'iat', 'verifier-id'; invalid value(s) for eat_profile (1.2.3.4.5)" =
      String.intercalate "; "
        ((if (mandatoryAbsentNames
              { profile := some "1.2.3.4.5",
                submods := [("test", { status := some TrustTierAffirming })] }).isEmpty
          then []
          else [missingClause ((mandatoryAbsentNames
            { profile := some "1.2.3.4.5",
              submods := [("test", { status := some TrustTierAffirming })] }).map
              renderMissingName)]) ++
         invalidFindings
           { profile := some "1.2.3.4.5",
             submods := [("test", { status := some TrustTierAffirming })] }) :=
  C1_marshal_error_accumulates
    { profile := some "1.2.3.4.5",
      submods := [("test", { status := some TrustTierAffirming })] }
    "missing mandatory 'iat', 'verifier-id'; invalid value(s) for eat_profile (1.2.3.4.5)"
    (by rfl)

/-- Renaming that carries an encode-side missing-field token to the
decode-side token for the same field. -/
def renameEnc (n : String) : String :=
  if n == "'verifier-id'" then "'ear.verifier-id'"
  else if n == "'submods' (at least one appraisal must be present)" then "'submods'"
  else n

/-- C2 counterexample: both directions flag the same four missing
mandatory fields of the empty model, but the reported names differ
('verifier-id' vs 'ear.verifier-id', plus the submods annotation) and so
does their order (iat and verifier-id are swapped), so the two error
strings for the very same violation set are different. -/
theorem C2_counterexample :
    validate {} =
      some "missing mandatory 'eat_profile', 'iat', 'verifier-id', 'submods' (at least one appraisal must be present)" ∧
    populateFromMap [] =
      Except.error "missing mandatory 'eat_profile', 'ear.verifier-id', 'iat', 'submods'" ∧
    ("missing mandatory 'eat_profile', 'iat', 'verifier-id', 'submods' (at least one appraisal must be present)" =
        "missing mandatory 'eat_profile', 'ear.verifier-id', 'iat', 'submods'" → False) := by
  refine ⟨rfl, rfl, ?_⟩
  intro h
  exact absurd h (by decide)

/-- C2 amended: decode applies the same mandatory-field checks as
encode — for any model with no invalid-value findings, the decode-side
missing-field report on the encoded object flags exactly the fields the
encode-side report flags (a permutation under the field renaming
`renameEnc`), but the two directions use direction-specific names and
order, each producing its own single missing-mandatory error. -/
theorem C2_amended (ar : AttestationResult)
    (hval : invalidFindings ar = []) :
    List.Perm ((topMissingRendered ar).map renameEnc) (decodeMissingNames ar) ∧
    (topMissingRendered ar ≠ [] →
      validate ar = some (missingClause (topMissingRendered ar))) ∧
    (decodeMissingNames ar ≠ [] →
      populateFromMap (arFields ar) =
        Except.error (missingClause (decodeMissingNames ar))) := by
  refine ⟨?_, ?_, ?_⟩
  · obtain ⟨prof, iat, vid, non, raw, subs⟩ := ar
    cases prof <;> cases iat <;> cases vid <;> cases subs <;>
      simp [topMissingRendered, decodeMissingNames, renameEnc] <;> decide
  · intro hm
    have hm' : (topMissingRendered ar).isEmpty = false := by
      cases h : topMissingRendered ar with
      | nil => exact absurd h hm
      | cons a l => rfl
    have h1 : validate ar =
        some (String.intercalate "; "
          (missingClause (topMissingRendered ar) :: invalidFindings ar)) := by
      simp [validate, hm']
    rw [h1, hval]
    rfl
  · intro hd
    have hpop := populate_roundtrip ar hval
    unfold populateFromMap
    rw [hpop]
    cases h : decodeMissingNames ar with
    | nil => exact absurd h hd
    | cons a l =>
      show (match decodeMissingNames ar with
            | [] => Except.ok ar
            | names => Except.error (missingClause names)) =
        Except.error (missingClause (a :: l))
      rw [h]

/-- C2 amended witness: a model missing exactly iat and verifier-id;
encode reports them as 'iat', 'verifier-id', decode as
'ear.verifier-id', 'iat'. -/
theorem C2_amended_witness :
    List.Perm ((topMissingRendered
        { profile := some EatProfile,
          submods := [("test", { status := some TrustTierAffirming })] }).map renameEnc)
      (decodeMissingNames
        { profile := some EatProfile,
          submods := [("test", { status := some TrustTierAffirming })] }) ∧
    (topMissingRendered
        { profile := some EatProfile,
          submods := [("test", { status := some TrustTierAffirming })] } ≠ [] →
      validate
        { profile := some EatProfile,
          submods := [("test", { status := some TrustTierAffirming })] } =
        some (missingClause (topMissingRendered
          { profile := some EatProfile,
            submods := [("test", { status := some TrustTierAffirming })] }))) ∧
    (decodeMissingNames
        { profile := some EatProfile,
          submods := [("test", { status := some TrustTierAffirming })] } ≠ [] →
      populateFromMap (arFields
        { profile := some EatProfile,
          submods := [("test", { status := some TrustTierAffirming })] }) =
        Except.error (missingClause (decodeMissingNames
          { profile := some EatProfile,
            submods := [("test", { status := some TrustTierAffirming })] }))) :=
  C2_amended
    { profile := some EatProfile,
      submods := [("test", { status := some TrustTierAffirming })] }
    (by rfl)

/-- C3: for every valid model and every key pair that matches under the
signature scheme, verifying what was signed succeeds and reproduces the
model exactly — including every vendor-extension entry, since the model
equality covers the `processedEvidence` and `verifierAddedClaims`
key/value lists verbatim. -/
theorem C3_sign_verify_roundtrip (sch : SigScheme) (alg priv pub : String)
    (ar : AttestationResult)
    (hkeys : ∀ h p, sch.sverify pub h p (sch.sign priv h p) = true)
    (hvalid : validate ar = none) :
    ∃ tok, Sign sch alg priv ar = Except.ok tok ∧
      Verify sch tok alg pub = Except.ok ar := by
  have hm : MarshalJSON ar = Except.ok (AsMap ar) := by
    unfold MarshalJSON
    rw [hvalid]
  refine ⟨[mkHeader alg, AsMap ar,
    JVal.str (sch.sign priv (mkHeader alg) (AsMap ar))], ?_, ?_⟩
  · unfold Sign
    rw [hm]
  · show verifyChecked sch (mkHeader alg) (AsMap ar)
      (sch.sign priv (mkHeader alg) (AsMap ar)) alg pub = Except.ok ar
    unfold verifyChecked
    rw [show headerAlg (mkHeader alg) = some alg from rfl]
    simp only [beq_self_eq_true, hkeys, Bool.and_self, if_true, AsMap]
    rw [populateFromMapVerify_roundtrip ar hvalid]

/-- A toy instantiation of the signature primitive, for witnesses. -/
def toyScheme : SigScheme :=
  { sign := fun _ _ _ => "toy-signature",
    sverify := fun _ _ _ s => s == "toy-signature" }

/-- C3 witness: the test suite's extended result round-trips through
sign and verify under a matching toy key pair. -/
theorem C3_sign_verify_roundtrip_witness :
    ∃ tok, Sign toyScheme "ES256" "priv" testAttestationResultsWithVeraisonExtns =
        Except.ok tok ∧
      Verify toyScheme tok "ES256" "pub" =
        Except.ok testAttestationResultsWithVeraisonExtns :=
  C3_sign_verify_roundtrip toyScheme "ES256" "priv" "pub"
    testAttestationResultsWithVeraisonExtns (fun h p => by rfl) (by rfl)

/-- C5: once a token frames correctly (three segments, parsable header),
every signature-side failure — header algorithm different from the
expected one (which also covers algorithm "none"), or a signature the
primitive rejects (tampered bytes, wrong key) — produces the one
undifferentiated signature-error value, identical across causes, and
never a ValidationError. -/
theorem C5_uniform_signature_failure (sch : SigScheme) (expAlg pub : String)
    (h p : JVal) (a sig : String)
    (hhdr : headerAlg h = some a)
    (hfail : a ≠ expAlg ∨ sch.sverify pub h p sig = false) :
    Verify sch [h, p, JVal.str sig] expAlg pub = Except.error EarError.signature ∧
    (∀ m, Verify sch [h, p, JVal.str sig] expAlg pub ≠
      Except.error (EarError.validation m)) := by
  have hcond : (a == expAlg && sch.sverify pub h p sig) = false := by
    rcases hfail with hf | hf
    · rw [beq_eq_false_iff_ne.mpr hf, Bool.false_and]
    · rw [hf, Bool.and_false]
  have hv : Verify sch [h, p, JVal.str sig] expAlg pub =
      Except.error EarError.signature := by
    show verifyChecked sch h p sig expAlg pub = Except.error EarError.signature
    unfold verifyChecked
    rw [hhdr]
    simp [hcond]
  refine ⟨hv, ?_⟩
  intro m hcontra
  rw [hv] at hcontra
  injection hcontra with h'
  cases h'

/-- C5 witness: a well-framed token whose signature string the primitive
rejects (a tampered signature) fails with the uniform signature error. -/
theorem C5_uniform_signature_failure_witness :
    Verify toyScheme [mkHeader "ES256", JVal.obj [], JVal.str "tampered"] "ES256" "pub" =
        Except.error EarError.signature ∧
    (∀ m, Verify toyScheme [mkHeader "ES256", JVal.obj [], JVal.str "tampered"] "ES256" "pub" ≠
      Except.error (EarError.validation m)) :=
  C5_uniform_signature_failure toyScheme "ES256" "pub" (mkHeader "ES256")
    (JVal.obj []) "ES256" "tampered" (by rfl) (Or.inr (by rfl))

/- Replication of the `TestVerify_fail` empty-payload vector: on the
verify path the empty object is reported missing eat_profile,
ear.verifier-id and submods — without iat, unlike plain decode. -/

theorem earVerifyFailEmptyVec :
    Verify toyScheme [mkHeader "ES256", JVal.obj [], JVal.str "toy-signature"]
        "ES256" "pub" =
      Except.error (EarError.validation
        "missing mandatory 'eat_profile', 'ear.verifier-id', 'submods'") := by
  rfl

/-- A payload carrying profile, verifier-id and a valid submodule but no
iat: it fails the codec's mandatory-field validation (iat is mandatory
there), yet the verify path accepts it. -/
def c6Payload : List (String × JVal) :=
  [("eat_profile", JVal.str EatProfile),
   ("ear.verifier-id", JVal.obj [("build", JVal.str "rrtrap-v1.0.0"),
                                 ("developer", JVal.str "Acme Inc.")]),
   ("submods", JVal.obj [("test", JVal.obj [("ear.status", JVal.str "affirming")])])]

/-- C6 counterexample: the claim quantifies over every well-formed
object payload failing the mandatory-field validation; `c6Payload` is
such a payload (plain decode rejects it: missing mandatory iat), yet a
token carrying it with a verifying signature makes Verify SUCCEED — the
verify path does not check iat, as the test suite pins for the empty
object (reported there as missing eat_profile, ear.verifier-id, submods
without iat). -/
theorem C6_counterexample :
    populateFromMap c6Payload = Except.error "missing mandatory 'iat'" ∧
    Verify toyScheme [mkHeader "ES256", JVal.obj c6Payload,
        JVal.str "toy-signature"] "ES256" "pub" =
      Except.ok
        { profile := some EatProfile, verifierID := some testVerifierID,
          submods := [("test", { status := some TrustTierAffirming })] } :=
  ⟨rfl, rfl⟩

/-- C6 amended: signature validity and semantic validity are
independent, both-required gates — for every token whose signature
verifies and whose well-formed object payload fails the verify-path
decode (which requires eat_profile, ear.verifier-id and submods but,
unlike plain decode, not iat), Verify returns that validation error and
never succeeds; in particular the empty object fails even though the
signature verified. -/
theorem C6_amended (sch : SigScheme) (expAlg pub sig : String)
    (fs : List (String × JVal)) (e : String)
    (hsig : sch.sverify pub (mkHeader expAlg) (JVal.obj fs) sig = true)
    (hdec : populateFromMapVerify fs = Except.error e) :
    Verify sch [mkHeader expAlg, JVal.obj fs, JVal.str sig] expAlg pub =
      Except.error (EarError.validation e) ∧
    (∀ ar, Verify sch [mkHeader expAlg, JVal.obj fs, JVal.str sig] expAlg pub ≠
      Except.ok ar) := by
  have hhdr : headerAlg (mkHeader expAlg) = some expAlg := by
    simp [headerAlg, mkHeader, List.lookup]
  have hv : Verify sch [mkHeader expAlg, JVal.obj fs, JVal.str sig] expAlg pub =
      Except.error (EarError.validation e) := by
    show verifyChecked sch (mkHeader expAlg) (JVal.obj fs) sig expAlg pub =
      Except.error (EarError.validation e)
    unfold verifyChecked
    rw [hhdr]
    simp only [beq_self_eq_true, hsig, Bool.and_self, if_true]
    rw [hdec]
  refine ⟨hv, ?_⟩
  intro ar hcontra
  rw [hv] at hcontra
  cases hcontra

/-- C6 amended witness: the empty-object payload under the toy scheme
fails with the three verify-path missing fields, exactly the string the
test suite pins. -/
theorem C6_amended_witness :
    Verify toyScheme [mkHeader "ES256", JVal.obj [], JVal.str "toy-signature"]
        "ES256" "pub" =
      Except.error (EarError.validation
        "missing mandatory 'eat_profile', 'ear.verifier-id', 'submods'") ∧
    (∀ ar, Verify toyScheme [mkHeader "ES256", JVal.obj [], JVal.str "toy-signature"]
        "ES256" "pub" ≠ Except.ok ar) :=
  C6_amended toyScheme "ES256" "pub" "toy-signature" []
    "missing mandatory 'eat_profile', 'ear.verifier-id', 'submods'"
    (by rfl) (by rfl)

/-- C7: malformed framing is a structural parse error distinct from
signature failure — a token with a fourth segment is rejected with a
parse error whose value does not depend on the scheme, keys or expected
algorithm (no signature check is consulted), and is never the signature
error; and on the decode side, a failing underlying parser's message is
propagated verbatim, while a top-level type mismatch (an array where an
object is required) fails with the parser's fixed message. -/
theorem C7_framing_and_parse_errors (s1 s2 s3 s4 : JVal) (sch sch2 : SigScheme)
    (alg pub alg2 pub2 m : String) (xs : List JVal) :
    Verify sch [s1, s2, s3, s4] alg pub =
      Except.error (EarError.parse
        "invalid compact serialization format: invalid number of segments") ∧
    Verify sch [s1, s2, s3, s4] alg pub = Verify sch2 [s1, s2, s3, s4] alg2 pub2 ∧
    Verify sch [s1, s2, s3, s4] alg pub ≠ Except.error EarError.signature ∧
    UnmarshalJSON (Except.error m) = Except.error m ∧
    UnmarshalJSON (Except.ok (JVal.arr xs)) =
      Except.error "json: cannot unmarshal array into Go value of type map[string]interface \x7b\x7d" := by
  refine ⟨rfl, rfl, ?_, rfl, rfl⟩
  intro hcontra
  have : Except.error (EarError.parse
      "invalid compact serialization format: invalid number of segments") =
      (Except.error EarError.signature : Except EarError AttestationResult) := hcontra
  injection this with h'
  cases h'

/-- C4 counterexample: the claim asserts Status is monotonically
non-decreasing across ANY interleaving of derivation calls and manual
overrides; but a manual override is a direct assignment and may write a
strictly less severe value — here an appraisal at Warning undergoes a
derivation call followed by a manual override to None, and its status
strictly decreases. -/
theorem C4_counterexample :
    statusOf (runSteps
        { status := some TrustTierWarning, trustVector := some {} }
        [ArStep.derive, ArStep.override TrustTierNone]) <
      statusOf { status := some TrustTierWarning, trustVector := some {} } := by
  decide

/-- C4 amended: UpdateStatusFromTrustVector sets Status to
max(existing, candidate) under the severity order, where the candidate
is the most severe band present among the vector's claims (None for an
all-NoClaim vector); the operation is idempotent for a fixed vector; and
across any interleaving of derivation calls and manual overrides in
which no override itself writes a strictly less severe status, Status is
monotonically non-decreasing and ends at least as severe as every
candidate ever derived. -/
theorem C4_amended (a : Appraisal) (v : TrustVector) (steps : List ArStep)
    (hv : a.trustVector = some v) (hok : okSteps a steps) :
    statusOf a.UpdateStatusFromTrustVector =
      max (statusOf a) (candidateTier v) ∧
    (∀ c ∈ v.claims, tierOfClaim c ≤ candidateTier v) ∧
    (candidateTier v = TrustTierNone ∨
      ∃ c ∈ v.claims, candidateTier v = tierOfClaim c) ∧
    ((∀ c ∈ v.claims, c = NoClaim) → candidateTier v = TrustTierNone) ∧
    a.UpdateStatusFromTrustVector.UpdateStatusFromTrustVector =
      a.UpdateStatusFromTrustVector ∧
    statusOf a ≤ statusOf (runSteps a steps) ∧
    (∀ c ∈ derivedCandidates a steps, c ≤ statusOf (runSteps a steps)) := by
  refine ⟨?_, fun c hc => candidateTier_ge v c hc, candidateTier_attained v,
    candidateTier_noclaim v, update_idem a, runSteps_mono steps a hok,
    fun c hc => derivedCandidates_le steps a hok c hc⟩
  rw [statusOf_update]
  simp [candOf, hv]

/-- Witness fixtures: a vector with an unsupportable configuration claim
and an appraisal at Affirming carrying it. -/
def c4wVec : TrustVector := { configuration := UnsupportableConfigClaim }

def c4wAppraisal : Appraisal :=
  { status := some TrustTierAffirming, trustVector := some c4wVec }

/-- C4 amended witness: the appraisal above, run through one derivation
call. -/
theorem C4_amended_witness :
    statusOf c4wAppraisal.UpdateStatusFromTrustVector =
      max (statusOf c4wAppraisal) (candidateTier c4wVec) ∧
    (∀ c ∈ c4wVec.claims, tierOfClaim c ≤ candidateTier c4wVec) ∧
    (candidateTier c4wVec = TrustTierNone ∨
      ∃ c ∈ c4wVec.claims, candidateTier c4wVec = tierOfClaim c) ∧
    ((∀ c ∈ c4wVec.claims, c = NoClaim) → candidateTier c4wVec = TrustTierNone) ∧
    c4wAppraisal.UpdateStatusFromTrustVector.UpdateStatusFromTrustVector =
      c4wAppraisal.UpdateStatusFromTrustVector ∧
    statusOf c4wAppraisal ≤ statusOf (runSteps c4wAppraisal [ArStep.derive]) ∧
    (∀ c ∈ derivedCandidates c4wAppraisal [ArStep.derive],
      c ≤ statusOf (runSteps c4wAppraisal [ArStep.derive])) :=
  C4_amended c4wAppraisal c4wVec [ArStep.derive] rfl ⟨trivial, trivial⟩

/-- A model that is valid in every respect, with a 16-character nonce
whose base64url-decoded length would be 12 bytes. -/
def c8AR : AttestationResult :=
  { profile := some EatProfile, issuedAt := some testIAT,
    verifierID := some testVerifierID,
    nonce := some "0123456789abcdef",
    submods := [("test", { status := some TrustTierAffirming })] }

/-- C8 counterexample: the claim keys the nonce check to the decoded
byte length; but the code validates the length of the stored nonce text
itself.  The nonce "0123456789abcdef" decodes (as base64url) to 12
bytes, outside the valid set, so by the claim encoding must fail — yet
MarshalJSON succeeds, because the text is 16 bytes long.  (The test
suite's own bad-nonce vector "1337" is reported as "4 bytes", its text
length, not its 3-byte decoded length.) -/
theorem C8_counterexample :
    b64urlDecodedLen ("0123456789abcdef".length) = 12 ∧
    nonceLenValid (b64urlDecodedLen ("0123456789abcdef".length)) = false ∧
    MarshalJSON c8AR = Except.ok (AsMap c8AR) := by
  refine ⟨by decide, by decide, ?_⟩
  rfl

/-- C8 amended: the nonce check measures the stored nonce string's
length in bytes (not its base64url-decoded length): a nonce whose text
length is outside \x7b8,16,32,48,64\x7d makes encode fail with an
invalid-value finding for eat_nonce naming that byte count, while a
nonce of a boundary text length passes the nonce check (validation
behaves exactly as with no nonce at all). -/
theorem C8_amended (ar : AttestationResult) (s : String)
    (hn : ar.nonce = some s) :
    (nonceLenValid s.length = false →
      ("invalid value(s) for eat_nonce (" ++ toString s.length ++ " bytes)") ∈
          invalidFindings ar ∧
        validate ar ≠ none) ∧
    (nonceLenValid s.length = true →
      invalidFindings ar = invalidFindings { ar with nonce := none } ∧
      validate ar = validate { ar with nonce := none }) := by
  constructor
  · intro hbad
    have hmem : ("invalid value(s) for eat_nonce (" ++ toString s.length ++ " bytes)") ∈
        invalidFindings ar := by
      unfold invalidFindings
      rw [hn]
      simp [hbad]
    refine ⟨hmem, ?_⟩
    intro hv
    have := (validate_none ar hv).2
    rw [this] at hmem
    cases hmem
  · intro hgood
    have hinv : invalidFindings ar = invalidFindings { ar with nonce := none } := by
      unfold invalidFindings
      rw [hn]
      simp [hgood]
    have htop : topMissingRendered ar = topMissingRendered { ar with nonce := none } := by
      unfold topMissingRendered
      rfl
    refine ⟨hinv, ?_⟩
    unfold validate
    rw [hinv, htop]

/-- C8 amended witness: the test suite's boundary-length nonce (16
characters) passes the check; a 4-character nonce is rejected naming
"4 bytes". -/
theorem C8_amended_witness :
    (nonceLenValid ("0123456789abcdef".length) = false →
      ("invalid value(s) for eat_nonce (" ++ toString ("0123456789abcdef".length) ++ " bytes)") ∈
          invalidFindings c8AR ∧
        validate c8AR ≠ none) ∧
    (nonceLenValid ("0123456789abcdef".length) = true →
      invalidFindings c8AR = invalidFindings { c8AR with nonce := none } ∧
      validate c8AR = validate { c8AR with nonce := none }) :=
  C8_amended c8AR "0123456789abcdef" rfl

/-- C9: enum-coded fields accept their canonical numeric code, mapped to
the corresponding model constant, and reject values of incompatible JSON
types — for `ear.status` (the four tier codes; bool/null/array/object
rejected) and for each trustworthiness-vector claim (any in-range claim
code; every non-numeric JSON type rejected), including at the decoding
steps for the respective object fields. -/
theorem C9_enum_coercion :
    (∀ c, claimInRange c = true → toTrustClaim (JVal.num c) = Except.ok c) ∧
    (toTrustTier (JVal.num 0) = Except.ok TrustTierNone ∧
     toTrustTier (JVal.num 2) = Except.ok TrustTierAffirming ∧
     toTrustTier (JVal.num 32) = Except.ok TrustTierWarning ∧
     toTrustTier (JVal.num 96) = Except.ok TrustTierContraindicated) ∧
    ((∀ b, toTrustTier (JVal.bool b) = Except.error "invalid value(s) for ear.status") ∧
     toTrustTier JVal.null = Except.error "invalid value(s) for ear.status" ∧
     (∀ xs, toTrustTier (JVal.arr xs) = Except.error "invalid value(s) for ear.status") ∧
     (∀ gs, toTrustTier (JVal.obj gs) = Except.error "invalid value(s) for ear.status")) ∧
    ((∀ b, toTrustClaim (JVal.bool b) = Except.error "unexpected type for trust claim") ∧
     toTrustClaim JVal.null = Except.error "unexpected type for trust claim" ∧
     (∀ s, toTrustClaim (JVal.str s) = Except.error "unexpected type for trust claim") ∧
     (∀ xs, toTrustClaim (JVal.arr xs) = Except.error "unexpected type for trust claim") ∧
     (∀ gs, toTrustClaim (JVal.obj gs) = Except.error "unexpected type for trust claim")) ∧
    appraisalStep {} ("ear.status", JVal.num 2) =
      Except.ok { status := some TrustTierAffirming } ∧
    vectorStep {} ("executables", JVal.num ApprovedRuntimeClaim) =
      Except.ok { executables := ApprovedRuntimeClaim } := by
  refine ⟨fun c hc => toTrustClaim_num_ok c hc, ⟨rfl, rfl, rfl, rfl⟩,
    ⟨fun b => rfl, rfl, fun xs => rfl, fun gs => rfl⟩,
    ⟨fun b => rfl, rfl, fun s => rfl, fun xs => rfl, fun gs => rfl⟩, rfl, rfl⟩

/-- C9 witness: the in-range claim code 2 is accepted as itself. -/
theorem C9_enum_coercion_witness :
    toTrustClaim (JVal.num 2) = Except.ok 2 :=
  C9_enum_coercion.1 2 (by decide)

/- ### NAETTS conversion lemmas. -/

/-- Does some entry of the object carry the given key? -/
def keysHas (fs : List (String × JVal)) (k : String) : Bool :=
  match fs with
  | [] => false
  | (k0, _) :: rest => if k0 = k then true else keysHas rest k

theorem keysHas_iff (fs : List (String × JVal)) (k : String) :
    keysHas fs k = true ↔ k ∈ fs.map Prod.fst := by
  induction fs with
  | nil => simp [keysHas]
  | cons kv rest ih =>
    obtain ⟨k0, v0⟩ := kv
    by_cases h : k0 = k
    · subst h
      simp [keysHas]
    · simp [keysHas, h, ih, Ne.symm h]

theorem naettsGo_unknown (fs : List (String × JVal)) (info : NAETTSInfo)
    (h : ∃ kv ∈ fs, ¬ naettsAllowedKey kv.1) :
    ∃ k, k ∈ fs.map Prod.fst ∧ ¬ naettsAllowedKey k ∧
      naettsGo info fs =
        Except.error ("found unknown key \"" ++ k ++ "\" in \"naetts\" object") := by
  induction fs generalizing info with
  | nil =>
    obtain ⟨kv, hkv, _⟩ := h
    cases hkv
  | cons kv rest ih =>
    obtain ⟨k0, v0⟩ := kv
    by_cases hk : naettsAllowedKey k0
    · have hrest : ∃ kv ∈ rest, ¬ naettsAllowedKey kv.1 := by
        obtain ⟨kv', hkv', hbad⟩ := h
        rcases List.mem_cons.mp hkv' with he | he
        · subst he
          exact absurd hk hbad
        · exact ⟨kv', he, hbad⟩
      rcases hk with hk1 | hk1 | hk1
      · subst hk1
        obtain ⟨k, hmem, hbad, heq⟩ := ih { info with sessionID := some (strOf v0) } hrest
        exact ⟨k, by simp [hmem], hbad, by simpa [naettsGo] using heq⟩
      · subst hk1
        obtain ⟨k, hmem, hbad, heq⟩ := ih { info with infrastructure := some (strOf v0) } hrest
        exact ⟨k, by simp [hmem], hbad, by simpa [naettsGo] using heq⟩
      · subst hk1
        obtain ⟨k, hmem, hbad, heq⟩ := ih { info with identity := some (strOf v0) } hrest
        exact ⟨k, by simp [hmem], hbad, by simpa [naettsGo] using heq⟩
    · rw [naettsAllowedKey, not_or, not_or] at hk
      obtain ⟨hk1, hk2, hk3⟩ := hk
      refine ⟨k0, by simp, ?_, ?_⟩
      · rw [naettsAllowedKey, not_or, not_or]
        exact ⟨hk1, hk2, hk3⟩
      · simp [naettsGo, hk1, hk2, hk3]

theorem naettsGo_allowed (fs : List (String × JVal)) (info : NAETTSInfo)
    (h : ∀ kv ∈ fs, naettsAllowedKey kv.1) :
    ∃ out, naettsGo info fs = Except.ok out ∧
      out.sessionID.isSome = (info.sessionID.isSome || keysHas fs "sessionid") ∧
      out.infrastructure.isSome =
        (info.infrastructure.isSome || keysHas fs "infrastructure") ∧
      out.identity.isSome = (info.identity.isSome || keysHas fs "identity") := by
  induction fs generalizing info with
  | nil => exact ⟨info, rfl, by simp [keysHas], by simp [keysHas], by simp [keysHas]⟩
  | cons kv rest ih =>
    obtain ⟨k0, v0⟩ := kv
    have hk := h (k0, v0) (List.mem_cons_self _ _)
    have hrest : ∀ kv ∈ rest, naettsAllowedKey kv.1 :=
      fun kv hkv => h kv (List.mem_cons_of_mem _ hkv)
    rcases hk with hk1 | hk1 | hk1
    · subst hk1
      obtain ⟨out, hgo, h1, h2, h3⟩ := ih { info with sessionID := some (strOf v0) } hrest
      refine ⟨out, by simpa [naettsGo] using hgo, ?_, ?_, ?_⟩
      · rw [h1]
        simp [keysHas]
      · rw [h2]
        simp [keysHas]
      · rw [h3]
        simp [keysHas]
    · subst hk1
      obtain ⟨out, hgo, h1, h2, h3⟩ := ih { info with infrastructure := some (strOf v0) } hrest
      refine ⟨out, by simpa [naettsGo] using hgo, ?_, ?_, ?_⟩
      · rw [h1]
        simp [keysHas]
      · rw [h2]
        simp [keysHas]
      · rw [h3]
        simp [keysHas]
    · subst hk1
      obtain ⟨out, hgo, h1, h2, h3⟩ := ih { info with identity := some (strOf v0) } hrest
      refine ⟨out, by simpa [naettsGo] using hgo, ?_, ?_, ?_⟩
      · rw [h1]
        simp [keysHas]
      · rw [h2]
        simp [keysHas]
      · rw [h3]
        simp [keysHas]

/-- C10: ToNAETTSInfo is total and never partially populates — a
non-map input yields the fixed tee-info format error; a map containing
any key outside sessionid/infrastructure/identity yields no value and an
error naming an offending key of the map; a map with only allowed keys
yields a value in which exactly the fields whose keys are present are
populated, with no error.  (The Go `nil, err` returns are the
`Except.error` case, which carries no partial value.) -/
theorem C10_ToNAETTSInfo (v : JVal) (fs : List (String × JVal)) :
    ((∀ gs, v ≠ JVal.obj gs) →
      ToNAETTSInfo v = Except.error "unexpected format for \"tee-info\"") ∧
    ((∃ kv ∈ fs, ¬ naettsAllowedKey kv.1) →
      ∃ k, k ∈ fs.map Prod.fst ∧ ¬ naettsAllowedKey k ∧
        ToNAETTSInfo (JVal.obj fs) =
          Except.error ("found unknown key \"" ++ k ++ "\" in \"naetts\" object")) ∧
    ((∀ kv ∈ fs, naettsAllowedKey kv.1) →
      ∃ info, ToNAETTSInfo (JVal.obj fs) = Except.ok info ∧
        (info.sessionID.isSome = true ↔ "sessionid" ∈ fs.map Prod.fst) ∧
        (info.infrastructure.isSome = true ↔ "infrastructure" ∈ fs.map Prod.fst) ∧
        (info.identity.isSome = true ↔ "identity" ∈ fs.map Prod.fst)) := by
  refine ⟨?_, ?_, ?_⟩
  · intro hno
    cases v with
    | obj gs => exact absurd rfl (hno gs)
    | null => rfl
    | bool b => rfl
    | num n => rfl
    | str s => rfl
    | arr xs => rfl
  · intro h
    exact naettsGo_unknown fs {} h
  · intro h
    obtain ⟨out, hgo, h1, h2, h3⟩ := naettsGo_allowed fs {} h
    refine ⟨out, hgo, ?_, ?_, ?_⟩
    · rw [h1]
      simp [keysHas_iff]
    · rw [h2]
      simp [keysHas_iff]
    · rw [h3]
      simp [keysHas_iff]

/-- C10 witness: a string input is rejected with the fixed format error;
a map with a bogus key is rejected naming it; a map with sessionid and
identity populates exactly those two fields. -/
theorem C10_ToNAETTSInfo_witness :
    ToNAETTSInfo (JVal.str "x") = Except.error "unexpected format for \"tee-info\"" ∧
    (∃ k, k ∈ ([("sessionid", JVal.str "s"), ("bogus", JVal.num 1)]).map Prod.fst ∧
      ¬ naettsAllowedKey k ∧
      ToNAETTSInfo (JVal.obj [("sessionid", JVal.str "s"), ("bogus", JVal.num 1)]) =
        Except.error ("found unknown key \"" ++ k ++ "\" in \"naetts\" object")) ∧
    (∃ info, ToNAETTSInfo
        (JVal.obj [("sessionid", JVal.str "s"), ("identity", JVal.str "i")]) =
        Except.ok info ∧
      (info.sessionID.isSome = true ↔ "sessionid" ∈
        ([("sessionid", JVal.str "s"), ("identity", JVal.str "i")]).map Prod.fst) ∧
      (info.infrastructure.isSome = true ↔ "infrastructure" ∈
        ([("sessionid", JVal.str "s"), ("identity", JVal.str "i")]).map Prod.fst) ∧
      (info.identity.isSome = true ↔ "identity" ∈
        ([("sessionid", JVal.str "s"), ("identity", JVal.str "i")]).map Prod.fst)) :=
  ⟨(C10_ToNAETTSInfo (JVal.str "x") []).1 (fun gs hcontra => by cases hcontra),
   (C10_ToNAETTSInfo JVal.null
      [("sessionid", JVal.str "s"), ("bogus", JVal.num 1)]).2.1
     ⟨("bogus", JVal.num 1), by simp, by simp [naettsAllowedKey]⟩,
   (C10_ToNAETTSInfo JVal.null
      [("sessionid", JVal.str "s"), ("identity", JVal.str "i")]).2.2
     (by
       intro kv hkv
       rcases List.mem_cons.mp hkv with he | he
       · subst he
         exact Or.inl rfl
       · rw [List.mem_singleton] at he
         subst he
         exact Or.inr (Or.inr rfl))⟩

/-- C7 witness: a concrete four-segment token is rejected with the
framing parse error under two different schemes and keys alike, and the
decode-side propagation holds for a concrete parser message and the
array case. -/
theorem C7_framing_and_parse_errors_witness :
    Verify toyScheme [JVal.str "a", JVal.str "b", JVal.str "c", JVal.str "d"]
        "ES256" "pub" =
      Except.error (EarError.parse
        "invalid compact serialization format: invalid number of segments") ∧
    Verify toyScheme [JVal.str "a", JVal.str "b", JVal.str "c", JVal.str "d"]
        "ES256" "pub" =
      Verify { sign := fun _ _ _ => "", sverify := fun _ _ _ _ => true }
        [JVal.str "a", JVal.str "b", JVal.str "c", JVal.str "d"] "HS256" "other" ∧
    Verify toyScheme [JVal.str "a", JVal.str "b", JVal.str "c", JVal.str "d"]
        "ES256" "pub" ≠ Except.error EarError.signature ∧
    UnmarshalJSON (Except.error "unexpected end of JSON input") =
      Except.error "unexpected end of JSON input" ∧
    UnmarshalJSON (Except.ok (JVal.arr [])) =
      Except.error "json: cannot unmarshal array into Go value of type map[string]interface \x7b\x7d" :=
  C7_framing_and_parse_errors (JVal.str "a") (JVal.str "b") (JVal.str "c") (JVal.str "d")
    toyScheme { sign := fun _ _ _ => "", sverify := fun _ _ _ _ => true }
    "ES256" "pub" "HS256" "other" "unexpected end of JSON input" []
